import Mathlib

/-!
Shallow embedding of the aggregation-and-ranking engine of
`discord_emoji_ranking/module.py`: the `_SortOrder` enum, the
`_EmojiCounter` registry, the counting pass `count_emojis` and the
ranking pass `sort_ranking`, together with theorems about them.

Strings (emoji display names, message bodies) are modelled as lists of
character codes (`List Nat`); Python's substring test `name in content`
becomes the list-infix relation. Python dictionaries keyed by the closed
enum `_EmojiCountType` become functions `EmojiCountType → Nat`, and
`total_count` sums the dictionary's values over the enum's iteration
order, exactly as `sum(self._counts.values())` does.
-/

namespace DiscordEmojiRanking

/-- The `_SortOrder` enum of `module.py`. -/
inductive SortOrder
  | ASCENDING
  | DESCENDING
  deriving DecidableEq

/-- `_SortOrder.reverse`: `True if value == _SortOrder.DESCENDING else False`. -/
def SortOrder.reverse : SortOrder → Bool
  | SortOrder.DESCENDING => true
  | SortOrder.ASCENDING => false

/-- A custom emoji of the guild catalog: opaque unique id plus the display
name used for text matching (`discord.Emoji` as seen by the engine). -/
structure Emoji where
  id : Nat
  name : List Nat
  deriving DecidableEq

/-- The `_EmojiCountType` enum of `module.py`. -/
inductive EmojiCountType
  | MESSAGE_CONTENT
  | MESSAGE_REACTION
  deriving DecidableEq

/-- Iteration order of `_EmojiCountType` (its definition order), as used by
`{t: 0 for t in _EmojiCountType}` and by `sum(self._counts.values())`. -/
def EmojiCountType.all : List EmojiCountType :=
  [EmojiCountType.MESSAGE_CONTENT, EmojiCountType.MESSAGE_REACTION]

/-- The `_EmojiCounter` class: the tracked emoji, the mutable `_rank`
(initially 0), and the `_counts` dictionary keyed by `_EmojiCountType`. -/
@[ext]
structure EmojiCounter where
  emoji : Emoji
  rank : Nat
  counts : EmojiCountType → Nat

/-- `_EmojiCounter.__init__`: zero-valued counts, rank 0. -/
def EmojiCounter.init (e : Emoji) : EmojiCounter :=
  { emoji := e, rank := 0, counts := fun _ => 0 }

/-- `_EmojiCounter.increment`: `self._counts[count_type] += 1`. -/
def EmojiCounter.increment (c : EmojiCounter) (t : EmojiCountType) : EmojiCounter :=
  { c with counts := fun t2 => if t2 = t then c.counts t2 + 1 else c.counts t2 }

/-- `_EmojiCounter.content_count`. -/
def EmojiCounter.content_count (c : EmojiCounter) : Nat :=
  c.counts EmojiCountType.MESSAGE_CONTENT

/-- `_EmojiCounter.reaction_count`. -/
def EmojiCounter.reaction_count (c : EmojiCounter) : Nat :=
  c.counts EmojiCountType.MESSAGE_REACTION

/-- `_EmojiCounter.total_count`: `sum(self._counts.values())`. -/
def EmojiCounter.total_count (c : EmojiCounter) : Nat :=
  (EmojiCountType.all.map c.counts).sum

instance : DecidableEq EmojiCounter := fun a b =>
  decidable_of_iff
    (a.emoji = b.emoji ∧ a.rank = b.rank ∧
      a.counts EmojiCountType.MESSAGE_CONTENT = b.counts EmojiCountType.MESSAGE_CONTENT ∧
      a.counts EmojiCountType.MESSAGE_REACTION = b.counts EmojiCountType.MESSAGE_REACTION)
    (by
      constructor
      · rintro ⟨he, hr, h1, h2⟩
        cases a with
        | mk ea ra ca =>
          cases b with
          | mk eb rb cb =>
            dsimp at he hr h1 h2
            subst he
            subst hr
            have : ca = cb := by
              funext t
              cases t
              · exact h1
              · exact h2
            rw [this]
      · intro h
        subst h
        exact ⟨rfl, rfl, rfl, rfl⟩)

instance : DecidableEq (Option EmojiCounter) := fun a b =>
  match a, b with
  | none, none => isTrue rfl
  | some x, some y =>
    if h : x = y then isTrue (by rw [h])
    else isFalse fun hc => h (Option.some.inj hc)
  | none, some _ => isFalse fun hc => Option.noConfusion hc
  | some _, none => isFalse fun hc => Option.noConfusion hc

/-- A user as the engine sees it: id and bot flag. -/
structure User where
  id : Nat
  bot : Bool
  deriving DecidableEq

/-- A reaction entry on a message: the reacting emoji's id when it is a
custom `discord.Emoji` (`none` models a non-custom emoji, rejected by the
`isinstance` check), plus the users who applied the reaction. -/
structure Reaction where
  emojiId : Option Nat
  users : List User
  deriving DecidableEq

/-- A message as the engine sees it: author id, author bot flag, text body
(character codes) and its reaction entries. -/
structure Message where
  authorId : Nat
  authorBot : Bool
  content : List Nat
  reactions : List Reaction
  deriving DecidableEq

/-- The filter state of the cog relevant to `count_emojis`:
`self._user_ids` and `self._contains_bot`. -/
structure Filters where
  user_ids : List Nat
  contains_bot : Bool
  deriving DecidableEq

/-- `author_matches = not user_ids or message.author.id in user_ids`. -/
def authorMatches (f : Filters) (m : Message) : Bool :=
  f.user_ids.isEmpty || f.user_ids.contains m.authorId

/-- `if user_ids: users = [user for user in users if user.id in user_ids]`. -/
def narrowUsers (f : Filters) (users : List User) : List User :=
  if f.user_ids.isEmpty then users
  else users.filter fun u => f.user_ids.contains u.id

/-- Whether one reaction entry is counted for a counter tracking emoji `e`,
mirroring the body of the reaction loop of `count_emojis`: skip non-custom
emojis, skip mismatched ids, narrow the user set by the author filter, skip
when the narrowed set is empty, skip when bots are excluded and every
narrowed user is a bot; otherwise count. -/
def reactionCounted (f : Filters) (e : Emoji) (r : Reaction) : Bool :=
  match r.emojiId with
  | none => false
  | some rid =>
    if rid ≠ e.id then false
    else
      let users := narrowUsers f r.users
      if users.isEmpty then false
      else if !f.contains_bot && users.all (fun u => u.bot) then false
      else true

/-- The message-content arm of `count_emojis` for one counter:
`if author_matches and counter.emoji.name in message.content:` then
`if self._contains_bot or not message.author.bot:` increment. -/
def countContent (f : Filters) (m : Message) (c : EmojiCounter) : EmojiCounter :=
  if authorMatches f m && decide (c.emoji.name <:+: m.content) then
    if f.contains_bot || !m.authorBot then c.increment EmojiCountType.MESSAGE_CONTENT
    else c
  else c

/-- The reaction loop of `count_emojis` for one counter:
`for reaction in message.reactions: ...`. -/
def countReactions (f : Filters) (m : Message) (c : EmojiCounter) : EmojiCounter :=
  m.reactions.foldl
    (fun acc r =>
      if reactionCounted f acc.emoji r then acc.increment EmojiCountType.MESSAGE_REACTION
      else acc)
    c

/-- The body of the per-message, per-counter iteration of `count_emojis`:
the content arm followed by the reaction loop. -/
def countMessage (f : Filters) (m : Message) (c : EmojiCounter) : EmojiCounter :=
  countReactions f m (countContent f m c)

/-- `count_emojis`: `for message in messages: for counter in counters: ...`,
returning the updated counter list. -/
def count_emojis (f : Filters) (counters : List EmojiCounter) (messages : List Message) :
    List EmojiCounter :=
  messages.foldl (fun cs m => cs.map (countMessage f m)) counters

/-- The comparison used by `sorted(counters, key=lambda c: c.total_count,
reverse=reverse)`: when `rev` is true the keys are compared in reversed
order while equal keys keep their original relative order (Python's sort is
stable). -/
def sortRel (rev : Bool) (a b : EmojiCounter) : Prop :=
  (if rev then b.total_count else a.total_count) ≤
    (if rev then a.total_count else b.total_count)

instance (rev : Bool) : DecidableRel (sortRel rev) := fun a b => by
  unfold sortRel
  exact Nat.decLe _ _

instance (rev : Bool) : IsTotal EmojiCounter (sortRel rev) where
  total a b := by
    unfold sortRel
    cases rev <;> simp <;> exact Nat.le_total _ _

instance (rev : Bool) : IsTrans EmojiCounter (sortRel rev) where
  trans a b c hab hbc := by
    unfold sortRel at *
    cases rev <;> simp_all <;> omega

/-- The rank-assignment loop of `sort_ranking` from index 1 on: `prev` is
the (already ranked) previous entry and `idx` its 0-based index; each entry
gets `index + 1` unless its total equals the previous entry's total, in
which case it gets `prev.rank`. -/
def assignRanksFrom (prev : EmojiCounter) (idx : Nat) :
    List EmojiCounter → List EmojiCounter
  | [] => []
  | c :: rest =>
    let r := if prev.total_count = c.total_count then prev.rank else idx + 1 + 1
    let c2 := { c with rank := r }
    c2 :: assignRanksFrom c2 (idx + 1) rest

/-- The rank-assignment loop of `sort_ranking`: the first entry gets rank 1
(`index + 1` at index 0, the tie branch being unreachable there). -/
def assignRanks : List EmojiCounter → List EmojiCounter
  | [] => []
  | c :: rest =>
    let c2 := { c with rank := 1 }
    c2 :: assignRanksFrom c2 0 rest

/-- `sort_ranking`: stable sort by `total_count` (direction from
`_SortOrder.reverse(self._order)`), slice to the first `slice_num` entries,
then assign ranks over the sliced list. -/
def sort_ranking (order : SortOrder) (counters : List EmojiCounter) (slice_num : Nat) :
    List EmojiCounter :=
  assignRanks ((List.insertionSort (sortRel (SortOrder.reverse order)) counters).take slice_num)

/-- The per-message, per-counter tally added by one message to one counter
tracking emoji `e`: 0 or 1 for the content mode, and the number of counted
reaction entries for the reaction mode. -/
def msgDelta (f : Filters) (e : Emoji) (m : Message) : EmojiCountType → Nat
  | EmojiCountType.MESSAGE_CONTENT =>
    if authorMatches f m && decide (e.name <:+: m.content) && (f.contains_bot || !m.authorBot)
    then 1 else 0
  | EmojiCountType.MESSAGE_REACTION => m.reactions.countP (reactionCounted f e)

/-- Example catalog symbols A, B, C, D of the spec's worked examples. -/
def eA : Emoji := ⟨1, [10]⟩

def eB : Emoji := ⟨2, [11]⟩

def eC : Emoji := ⟨3, [12]⟩

def eD : Emoji := ⟨4, [13]⟩

/-- A counter over `e` whose `total_count` is `n` (all of it text count). -/
def counterWithTotal (e : Emoji) (n : Nat) : EmojiCounter :=
  { emoji := e, rank := 0,
    counts := fun t => match t with
      | EmojiCountType.MESSAGE_CONTENT => n
      | EmojiCountType.MESSAGE_REACTION => 0 }

/-- Counters with totals `[5, 5, 3, 1]` in catalog order `[A, B, C, D]`. -/
def ex5531 : List EmojiCounter :=
  [counterWithTotal eA 5, counterWithTotal eB 5, counterWithTotal eC 3, counterWithTotal eD 1]

/-- Counters with totals `[5, 5, 5, 1]` in catalog order `[A, B, C, D]`. -/
def ex5551 : List EmojiCounter :=
  [counterWithTotal eA 5, counterWithTotal eB 5, counterWithTotal eC 5, counterWithTotal eD 1]

/-- No author filter, bot activity excluded. -/
def fNoFilterNoBots : Filters := ⟨[], false⟩

/-- A reaction with symbol A applied by three users, two of them bots. -/
def reactTwoOfThreeBots : Reaction := ⟨some 1, [⟨101, true⟩, ⟨102, true⟩, ⟨100, false⟩]⟩

/-- A human-authored message carrying only `reactTwoOfThreeBots`. -/
def msgTwoOfThreeBots : Message := ⟨500, false, [], [reactTwoOfThreeBots]⟩

/-- A bot-authored message whose text contains every catalog symbol's name. -/
def msgBotAuthorAllNames : Message := ⟨600, true, [10, 11, 12, 13], []⟩

/-- Plain human messages used to exercise batch-order independence. -/
def msgA : Message := ⟨700, false, [10], []⟩

def msgB : Message := ⟨701, false, [11], []⟩

def msgC : Message := ⟨702, false, [12], []⟩

lemma counterEq (a b : EmojiCounter) (he : a.emoji = b.emoji) (hr : a.rank = b.rank)
    (hc : ∀ t, a.counts t = b.counts t) : a = b := by
  cases a with
  | mk e r cnt =>
    cases b with
    | mk e2 r2 cnt2 =>
      dsimp at he hr hc
      subst he
      subst hr
      rw [funext hc]

lemma countContent_eq (f : Filters) (m : Message) (c : EmojiCounter) :
    countContent f m c =
      { c with counts := fun t =>
          c.counts t + (if t = EmojiCountType.MESSAGE_CONTENT
            then msgDelta f c.emoji m EmojiCountType.MESSAGE_CONTENT else 0) } := by
  unfold countContent
  cases hA : authorMatches f m && decide (c.emoji.name <:+: m.content) <;>
    cases hB : f.contains_bot || !m.authorBot <;>
    refine counterEq _ _ (by simp [hA, hB, EmojiCounter.increment])
      (by simp [hA, hB, EmojiCounter.increment]) (fun t => ?_) <;>
    cases t <;>
    simp [hA, hB, EmojiCounter.increment, msgDelta]

lemma foldlReactions_eq (f : Filters) (rs : List Reaction) (c : EmojiCounter) :
    rs.foldl
      (fun acc r =>
        if reactionCounted f acc.emoji r then acc.increment EmojiCountType.MESSAGE_REACTION
        else acc)
      c =
    { c with counts := fun t =>
        c.counts t + (if t = EmojiCountType.MESSAGE_REACTION
          then rs.countP (reactionCounted f c.emoji) else 0) } := by
  induction rs generalizing c with
  | nil =>
    refine counterEq _ _ rfl rfl (fun t => ?_)
    cases t <;> simp
  | cons r rs ih =>
    simp only [List.foldl_cons]
    cases hr : reactionCounted f c.emoji r with
    | false =>
      rw [if_neg (by simp [hr])]
      rw [ih c]
      refine counterEq _ _ rfl rfl (fun t => ?_)
      cases t <;> simp [List.countP_cons, hr]
    | true =>
      rw [if_pos (by simp [hr])]
      rw [ih (c.increment EmojiCountType.MESSAGE_REACTION)]
      refine counterEq _ _ rfl rfl (fun t => ?_)
      cases t
      · simp [EmojiCounter.increment, List.countP_cons, hr]
      · simp [EmojiCounter.increment, List.countP_cons, hr]
        omega

lemma countMessage_eq (f : Filters) (m : Message) (c : EmojiCounter) :
    countMessage f m c = { c with counts := fun t => c.counts t + msgDelta f c.emoji m t } := by
  unfold countMessage countReactions
  rw [countContent_eq]
  rw [foldlReactions_eq]
  refine counterEq _ _ rfl rfl (fun t => ?_)
  cases t <;> simp [msgDelta]

lemma messagesFold_eq (f : Filters) (ms : List Message) (c : EmojiCounter) :
    ms.foldl (fun acc m => countMessage f m acc) c =
      { c with counts := fun t => c.counts t + (ms.map fun m => msgDelta f c.emoji m t).sum } := by
  induction ms generalizing c with
  | nil =>
    refine counterEq _ _ rfl rfl (fun t => ?_)
    simp
  | cons m ms ih =>
    simp only [List.foldl_cons]
    rw [countMessage_eq, ih]
    refine counterEq _ _ rfl rfl (fun t => ?_)
    simp
    omega

lemma count_emojis_eq_map (f : Filters) (counters : List EmojiCounter) (ms : List Message) :
    count_emojis f counters ms =
      counters.map fun c => ms.foldl (fun acc m => countMessage f m acc) c := by
  induction ms generalizing counters with
  | nil => simp [count_emojis]
  | cons m ms ih =>
    unfold count_emojis at *
    simp only [List.foldl_cons]
    rw [ih (counters.map (countMessage f m)), List.map_map]
    rfl

lemma batchesFold_eq_flatten (f : Filters) (counters : List EmojiCounter)
    (batches : List (List Message)) :
    batches.foldl (count_emojis f) counters = count_emojis f counters batches.flatten := by
  induction batches generalizing counters with
  | nil => simp [count_emojis]
  | cons b bs ih =>
    simp only [List.foldl_cons, List.flatten_cons]
    rw [ih (count_emojis f counters b)]
    unfold count_emojis
    rw [List.foldl_append]

/-- C8: for every counter, `total_count` equals `content_count` plus
`reaction_count`, and across any sequence of counting passes both tallies
(non-negative by their `Nat` type) only grow or stay equal. -/
theorem C8_count_invariants :
    (∀ c : EmojiCounter, c.total_count = c.content_count + c.reaction_count) ∧
    ∀ (f : Filters) (batches : List (List Message)) (counters : List EmojiCounter)
      (j : Nat) (cIn cOut : EmojiCounter),
      counters[j]? = some cIn →
      (batches.foldl (count_emojis f) counters)[j]? = some cOut →
      cIn.content_count ≤ cOut.content_count ∧ cIn.reaction_count ≤ cOut.reaction_count := by
  constructor
  · intro c
    simp [EmojiCounter.total_count, EmojiCountType.all, EmojiCounter.content_count,
      EmojiCounter.reaction_count]
  · intro f batches counters j cIn cOut h1 h2
    rw [batchesFold_eq_flatten, count_emojis_eq_map, List.getElem?_map, h1] at h2
    simp only [Option.map_some', Option.some.injEq] at h2
    rw [← h2, messagesFold_eq]
    constructor
    · exact Nat.le_add_right _ _
    · exact Nat.le_add_right _ _

/-- C8 witness: the invariant instantiated on a concrete run. -/
theorem C8_count_invariants_witness :
    ex5531[0]? = some (counterWithTotal eA 5) ∧
    ([[msgA, msgB]].foldl (count_emojis fNoFilterNoBots) ex5531)[0]? =
      some (counterWithTotal eA 6) ∧
    (counterWithTotal eA 5).content_count ≤ (counterWithTotal eA 6).content_count ∧
    (counterWithTotal eA 5).reaction_count ≤ (counterWithTotal eA 6).reaction_count :=
  ⟨by decide, by decide,
    C8_count_invariants.2 fNoFilterNoBots [[msgA, msgB]] ex5531 0
      (counterWithTotal eA 5) (counterWithTotal eA 6) (by decide) (by decide)⟩

/-- C7: the counting pass is order- and partition-independent across message
batches: any two batch lists whose concatenations are permutations of each
other produce identical final counters. -/
theorem C7_batch_partition_independent (f : Filters) (counters : List EmojiCounter)
    (b1 b2 : List (List Message)) (h : List.Perm b1.flatten b2.flatten) :
    b1.foldl (count_emojis f) counters = b2.foldl (count_emojis f) counters := by
  rw [batchesFold_eq_flatten, batchesFold_eq_flatten, count_emojis_eq_map, count_emojis_eq_map]
  refine List.map_congr_left fun c _ => ?_
  rw [messagesFold_eq, messagesFold_eq]
  refine counterEq _ _ rfl rfl fun t => ?_
  have hs : (b1.flatten.map fun m => msgDelta f c.emoji m t).sum =
      (b2.flatten.map fun m => msgDelta f c.emoji m t).sum :=
    (h.map fun m => msgDelta f c.emoji m t).sum_eq
  change c.counts t + (b1.flatten.map fun m => msgDelta f c.emoji m t).sum =
    c.counts t + (b2.flatten.map fun m => msgDelta f c.emoji m t).sum
  rw [hs]

/-- C7 witness: counting `[A, B]` then `[C]` equals counting `[C]` then
`[A, B]` then an empty batch. -/
theorem C7_batch_partition_independent_witness :
    List.Perm [[msgA, msgB], [msgC]].flatten [[msgC], [msgA, msgB], []].flatten ∧
    [[msgA, msgB], [msgC]].foldl (count_emojis fNoFilterNoBots) ex5531 =
      [[msgC], [msgA, msgB], []].foldl (count_emojis fNoFilterNoBots) ex5531 :=
  ⟨by decide,
    C7_batch_partition_independent fNoFilterNoBots ex5531 [[msgA, msgB], [msgC]]
      [[msgC], [msgA, msgB], []] (by decide)⟩

/-- C2: a reaction entry matching a catalog symbol's id is counted exactly
once if and only if the author-narrowed user set is non-empty and it is not
the case that bots are excluded while every narrowed user is a bot; the
reaction tally of a message adds exactly one per counted reaction entry,
and a reaction with two bots among three reactors still counts under
`includeBotActivity = false` with no author filter. -/
theorem C2_reaction_counting :
    (∀ (f : Filters) (e : Emoji) (r : Reaction), r.emojiId = some e.id →
      (reactionCounted f e r = true ↔
        narrowUsers f r.users ≠ [] ∧
          ¬(f.contains_bot = false ∧ ∀ u ∈ narrowUsers f r.users, u.bot = true))) ∧
    (∀ (f : Filters) (m : Message) (c : EmojiCounter),
      (countMessage f m c).reaction_count =
        c.reaction_count + m.reactions.countP (reactionCounted f c.emoji)) ∧
    (countMessage fNoFilterNoBots msgTwoOfThreeBots (counterWithTotal eA 0)).reaction_count = 1 := by
  refine ⟨?_, ?_, by decide⟩
  · intro f e r h
    unfold reactionCounted
    rw [h]
    simp only [ne_eq, not_true_eq_false, if_false]
    cases hempty : (narrowUsers f r.users).isEmpty with
    | true =>
      rw [List.isEmpty_iff] at hempty
      simp [hempty]
    | false =>
      rw [List.isEmpty_eq_false] at hempty
      cases hcb : f.contains_bot <;>
        cases hall : (narrowUsers f r.users).all (fun u => u.bot) <;>
        simp_all
  · intro f m c
    rw [countMessage_eq]
    simp [EmojiCounter.reaction_count, msgDelta]

/-- C2 witness: the counting rule applied to the two-of-three-bots reaction. -/
theorem C2_reaction_counting_witness :
    reactTwoOfThreeBots.emojiId = some eA.id ∧
    (reactionCounted fNoFilterNoBots eA reactTwoOfThreeBots = true ↔
      narrowUsers fNoFilterNoBots reactTwoOfThreeBots.users ≠ [] ∧
        ¬(fNoFilterNoBots.contains_bot = false ∧
          ∀ u ∈ narrowUsers fNoFilterNoBots reactTwoOfThreeBots.users, u.bot = true)) :=
  ⟨by decide, C2_reaction_counting.1 fNoFilterNoBots eA reactTwoOfThreeBots (by decide)⟩

/-- C6: one message increments a counter's text tally by exactly one when the
symbol's display name occurs as a literal substring of the message text, the
author filter admits the author, and the bot guard passes; otherwise the
text tally is unchanged. Multiple occurrences inside one text still add one. -/
theorem C6_text_occurrence_counting (f : Filters) (m : Message) (c : EmojiCounter) :
    (countMessage f m c).content_count =
      c.content_count +
        (if (c.emoji.name <:+: m.content) ∧ (f.user_ids = [] ∨ m.authorId ∈ f.user_ids) ∧
            (f.contains_bot = true ∨ m.authorBot = false)
          then 1 else 0) := by
  rw [countMessage_eq]
  simp only [EmojiCounter.content_count]
  have hiff :
      (authorMatches f m && decide (c.emoji.name <:+: m.content) &&
          (f.contains_bot || !m.authorBot)) = true ↔
        (c.emoji.name <:+: m.content) ∧ (f.user_ids = [] ∨ m.authorId ∈ f.user_ids) ∧
          (f.contains_bot = true ∨ m.authorBot = false) := by
    simp only [authorMatches, Bool.and_eq_true, Bool.or_eq_true, List.isEmpty_iff,
      decide_eq_true_eq, List.contains, List.elem_iff, Bool.not_eq_true']
    tauto
  simp only [msgDelta]
  rw [if_congr hiff rfl rfl]

/-- C5: when bot activity is excluded, a bot-authored message contributes no
text-count increment to any counter, even if its text contains every name. -/
theorem C5_bot_author_text_excluded (f : Filters) (counters : List EmojiCounter) (m : Message)
    (hbot : m.authorBot = true) (hcb : f.contains_bot = false) :
    (count_emojis f counters [m]).map EmojiCounter.content_count =
      counters.map EmojiCounter.content_count := by
  rw [count_emojis_eq_map, List.map_map]
  refine List.map_congr_left fun c _ => ?_
  show (List.foldl (fun acc m2 => countMessage f m2 acc) c [m]).content_count = c.content_count
  rw [List.foldl_cons, List.foldl_nil, countMessage_eq]
  simp [EmojiCounter.content_count, msgDelta, hbot, hcb]

/-- C5 witness: a bot-authored message whose text holds all four names adds
zero text counts when bots are excluded. -/
theorem C5_bot_author_text_excluded_witness :
    msgBotAuthorAllNames.authorBot = true ∧ fNoFilterNoBots.contains_bot = false ∧
    (count_emojis fNoFilterNoBots ex5531 [msgBotAuthorAllNames]).map EmojiCounter.content_count =
      ex5531.map EmojiCounter.content_count :=
  ⟨by decide, by decide,
    C5_bot_author_text_excluded fNoFilterNoBots ex5531 msgBotAuthorAllNames rfl rfl⟩

lemma assignRanksFrom_length (l : List EmojiCounter) : ∀ prev idx,
    (assignRanksFrom prev idx l).length = l.length := by
  induction l with
  | nil => intro prev idx; rfl
  | cons c rest ih => intro prev idx; simp [assignRanksFrom, ih]

lemma assignRanks_length (l : List EmojiCounter) : (assignRanks l).length = l.length := by
  cases l with
  | nil => rfl
  | cons c rest => simp [assignRanks, assignRanksFrom_length]

lemma assignRanksFrom_shape (l : List EmojiCounter) :
    ∀ (prev : EmojiCounter) (idx j : Nat) (cIn cOut : EmojiCounter),
    l[j]? = some cIn → (assignRanksFrom prev idx l)[j]? = some cOut →
    cOut.emoji = cIn.emoji ∧ cOut.counts = cIn.counts := by
  induction l with
  | nil => intro prev idx j cIn cOut h1 _; simp at h1
  | cons c rest ih =>
    intro prev idx j cIn cOut h1 h2
    cases j with
    | zero =>
      simp only [assignRanksFrom, List.getElem?_cons_zero, Option.some.injEq] at h1 h2
      rw [← h1, ← h2]
      exact ⟨rfl, rfl⟩
    | succ j =>
      simp only [assignRanksFrom, List.getElem?_cons_succ] at h1 h2
      exact ih _ _ j cIn cOut h1 h2

lemma total_count_of_counts_eq {a b : EmojiCounter} (h : a.counts = b.counts) :
    a.total_count = b.total_count := by
  unfold EmojiCounter.total_count
  rw [h]

lemma assignRanksFrom_head (prev : EmojiCounter) (idx : Nat) (l : List EmojiCounter) :
    ∀ c0, (assignRanksFrom prev idx l)[0]? = some c0 →
      c0.rank = if prev.total_count = c0.total_count then prev.rank else idx + 2 := by
  cases l with
  | nil => intro c0 h; simp [assignRanksFrom] at h
  | cons c rest =>
    intro c0 h
    simp only [assignRanksFrom, List.getElem?_cons_zero, Option.some.injEq] at h
    rw [← h]
    rfl

lemma assignRanksFrom_chain (l : List EmojiCounter) : ∀ prev idx j a b,
    (assignRanksFrom prev idx l)[j]? = some a →
    (assignRanksFrom prev idx l)[j+1]? = some b →
    b.rank = if a.total_count = b.total_count then a.rank else idx + j + 3 := by
  induction l with
  | nil => intro prev idx j a b h1 _; simp [assignRanksFrom] at h1
  | cons c rest ih =>
    intro prev idx j a b h1 h2
    cases j with
    | zero =>
      simp only [assignRanksFrom, List.getElem?_cons_zero, List.getElem?_cons_succ,
        Option.some.injEq] at h1 h2
      have hb := assignRanksFrom_head _ _ _ _ h2
      rw [← h1]
      exact hb
    | succ j =>
      simp only [assignRanksFrom, List.getElem?_cons_succ] at h1 h2
      have hb := ih _ _ j a b h1 h2
      have he : idx + 1 + j + 3 = idx + (j + 1) + 3 := by omega
      rw [he] at hb
      exact hb

lemma assignRanks_head (l : List EmojiCounter) :
    ∀ c0, (assignRanks l)[0]? = some c0 → c0.rank = 1 := by
  cases l with
  | nil => intro c0 h; simp [assignRanks] at h
  | cons c rest =>
    intro c0 h
    simp only [assignRanks, List.getElem?_cons_zero, Option.some.injEq] at h
    rw [← h]

lemma assignRanks_chain (l : List EmojiCounter) : ∀ j a b,
    (assignRanks l)[j]? = some a → (assignRanks l)[j+1]? = some b →
    b.rank = if a.total_count = b.total_count then a.rank else j + 2 := by
  cases l with
  | nil => intro j a b h1 _; simp [assignRanks] at h1
  | cons c rest =>
    intro j a b h1 h2
    cases j with
    | zero =>
      simp only [assignRanks, List.getElem?_cons_zero, List.getElem?_cons_succ,
        Option.some.injEq] at h1 h2
      have hb := assignRanksFrom_head _ _ _ _ h2
      rw [← h1]
      exact hb
    | succ j =>
      simp only [assignRanks, List.getElem?_cons_succ] at h1 h2
      have hb := assignRanksFrom_chain _ _ _ _ _ _ h1 h2
      have he : 0 + j + 3 = j + 1 + 2 := by omega
      rw [he] at hb
      exact hb

lemma assignRanks_shape (l : List EmojiCounter) : ∀ (j : Nat) (cIn cOut : EmojiCounter),
    l[j]? = some cIn → (assignRanks l)[j]? = some cOut →
    cOut.emoji = cIn.emoji ∧ cOut.counts = cIn.counts := by
  cases l with
  | nil => intro j cIn cOut h1 _; simp at h1
  | cons c rest =>
    intro j cIn cOut h1 h2
    cases j with
    | zero =>
      simp only [assignRanks, List.getElem?_cons_zero, Option.some.injEq] at h1 h2
      rw [← h1, ← h2]
      exact ⟨rfl, rfl⟩
    | succ j =>
      simp only [assignRanks, List.getElem?_cons_succ] at h1 h2
      exact assignRanksFrom_shape rest _ _ j cIn cOut h1 h2

lemma sort_ranking_length (order : SortOrder) (counters : List EmojiCounter)
    (slice_num : Nat) :
    (sort_ranking order counters slice_num).length = min slice_num counters.length := by
  unfold sort_ranking
  rw [assignRanks_length, List.length_take, List.length_insertionSort]

/-- C9: ranking an empty catalog yields an empty result for every order and
every requested size, with no failure. -/
theorem C9_empty_catalog (order : SortOrder) (slice_num : Nat) :
    sort_ranking order ([] : List EmojiCounter) slice_num = [] := by
  unfold sort_ranking
  simp [List.insertionSort, List.take_nil, assignRanks]

/-- C1: over the truncated sorted sequence the first entry gets rank 1, and
each later entry repeats its predecessor's rank exactly when their totals
are equal, otherwise it gets its 1-based position (`index + 1`), as on the
descending `[5, 5, 3, 1]` example which yields ranks `[1, 1, 3, 4]`. -/
theorem C1_rank_assignment :
    (∀ (order : SortOrder) (counters : List EmojiCounter) (slice_num : Nat)
        (c0 : EmojiCounter),
      (sort_ranking order counters slice_num)[0]? = some c0 → c0.rank = 1) ∧
    (∀ (order : SortOrder) (counters : List EmojiCounter) (slice_num : Nat) (j : Nat)
        (a b : EmojiCounter),
      (sort_ranking order counters slice_num)[j]? = some a →
      (sort_ranking order counters slice_num)[j+1]? = some b →
      b.rank = if a.total_count = b.total_count then a.rank else j + 2) ∧
    (sort_ranking SortOrder.DESCENDING ex5531 4).map (fun c => (c.emoji.id, c.rank)) =
      [(1, 1), (2, 1), (3, 3), (4, 4)] := by
  refine ⟨?_, ?_, by decide⟩
  · intro order counters slice_num c0 h
    exact assignRanks_head _ _ h
  · intro order counters slice_num j a b h1 h2
    exact assignRanks_chain _ _ _ _ h1 h2

/-- C1 witness: the rank rule applied at the head and at the third entry of
the descending `[5, 5, 3, 1]` example. -/
theorem C1_rank_assignment_witness :
    (sort_ranking SortOrder.DESCENDING ex5531 4)[0]? =
      some { counterWithTotal eA 5 with rank := 1 } ∧
    { counterWithTotal eA 5 with rank := 1 }.rank = 1 ∧
    (sort_ranking SortOrder.DESCENDING ex5531 4)[1]? =
      some { counterWithTotal eB 5 with rank := 1 } ∧
    (sort_ranking SortOrder.DESCENDING ex5531 4)[2]? =
      some { counterWithTotal eC 3 with rank := 3 } ∧
    { counterWithTotal eC 3 with rank := 3 }.rank =
      if { counterWithTotal eB 5 with rank := 1 }.total_count =
          { counterWithTotal eC 3 with rank := 3 }.total_count
        then { counterWithTotal eB 5 with rank := 1 }.rank else 3 :=
  ⟨by decide,
    C1_rank_assignment.1 SortOrder.DESCENDING ex5531 4 _ (by decide),
    by decide, by decide,
    C1_rank_assignment.2.1 SortOrder.DESCENDING ex5531 4 1 _ _ (by decide) (by decide)⟩

/-- C3: truncation to `slice_num` entries happens before rank assignment and
is a hard cap even across ties: the result always has `min slice_num n`
entries, and on totals `[5, 5, 5, 1]` with limit 2 exactly the two first
entries come back, both with rank 1, while the entries cut off keep their
prior rank 0. -/
theorem C3_truncation_before_ranking (order : SortOrder) (counters : List EmojiCounter)
    (slice_num : Nat) :
    (sort_ranking order counters slice_num).length = min slice_num counters.length ∧
    (sort_ranking SortOrder.DESCENDING ex5551 2).map
      (fun c => (c.emoji.id, c.rank, c.total_count)) = [(1, 1, 5), (2, 1, 5)] ∧
    ((List.insertionSort (sortRel (SortOrder.reverse SortOrder.DESCENDING)) ex5551).drop 2).map
      (fun c => c.rank) = [0, 0] :=
  ⟨sort_ranking_length order counters slice_num, by decide, by decide⟩

lemma filter_orderedInsert_key {α : Type} (r : α → α → Prop) [DecidableRel r] (p : α → Bool)
    (x : α) (l : List α) (hx : p x = true → ∀ b, p b = true → r x b) :
    (List.orderedInsert r x l).filter p =
      if p x then x :: l.filter p else l.filter p := by
  rw [List.orderedInsert_eq_take_drop, List.filter_append]
  cases hpx : p x with
  | false =>
    rw [List.filter_cons_of_neg (by simp [hpx]), ← List.filter_append,
      List.takeWhile_append_dropWhile, if_neg (by simp [hpx])]
  | true =>
    have hTW : (l.takeWhile fun b => decide ¬r x b).filter p = [] := by
      rw [List.filter_eq_nil_iff]
      intro b hb hpb
      have hnr : ¬r x b := by
        have := List.mem_takeWhile_imp hb
        simpa using this
      exact hnr (hx hpx b hpb)
    rw [hTW, List.filter_cons_of_pos hpx, if_pos rfl]
    have hsplit : l.filter p =
        (l.takeWhile fun b => decide ¬r x b).filter p ++
          (l.dropWhile fun b => decide ¬r x b).filter p := by
      rw [← List.filter_append, List.takeWhile_append_dropWhile]
    rw [hsplit, hTW]
    rfl

lemma filter_insertionSort_key {α : Type} (r : α → α → Prop) [DecidableRel r] (p : α → Bool)
    (hp : ∀ x y, p x = true → p y = true → r x y) :
    ∀ l : List α, (List.insertionSort r l).filter p = l.filter p := by
  intro l
  induction l with
  | nil => rfl
  | cons x xs ih =>
    show (List.orderedInsert r x (List.insertionSort r xs)).filter p = _
    rw [filter_orderedInsert_key r p x _ (fun hx b hb => hp x b hx hb), ih]
    cases hpx : p x with
    | true => rw [if_pos rfl, List.filter_cons_of_pos hpx]
    | false => rw [if_neg (by simp [hpx]), List.filter_cons_of_neg (by simp [hpx])]

/-- C4: the sort of `sort_ranking` reorders exactly the input counters, by
total count (non-increasing under `DESCENDING`, non-decreasing otherwise),
and it is stable: the counters of any one total keep their catalog order,
and the `ASCENDING` run on totals `[5, 5, 3, 1]` returns `D, C, A, B` with
ranks `[1, 2, 3, 3]`. -/
theorem C4_stable_direction_sort (order : SortOrder) (counters : List EmojiCounter) :
    List.Perm (List.insertionSort (sortRel (SortOrder.reverse order)) counters) counters ∧
    List.Pairwise
      (fun a b =>
        if order = SortOrder.DESCENDING then b.total_count ≤ a.total_count
        else a.total_count ≤ b.total_count)
      (List.insertionSort (sortRel (SortOrder.reverse order)) counters) ∧
    (∀ t : Nat,
      (List.insertionSort (sortRel (SortOrder.reverse order)) counters).filter
          (fun c => decide (c.total_count = t)) =
        counters.filter fun c => decide (c.total_count = t)) ∧
    (sort_ranking SortOrder.ASCENDING ex5531 4).map (fun c => (c.emoji.id, c.rank)) =
      [(4, 1), (3, 2), (1, 3), (2, 3)] := by
  refine ⟨List.perm_insertionSort _ _, ?_, ?_, by decide⟩
  · refine (List.sorted_insertionSort (sortRel (SortOrder.reverse order)) counters).imp ?_
    intro a b h
    cases order <;> simpa [sortRel, SortOrder.reverse] using h
  · intro t
    refine filter_insertionSort_key _ _ ?_ counters
    intro x y hx hy
    simp only [decide_eq_true_eq] at hx hy
    unfold sortRel
    rw [hx, hy]

/-- C10: `sort_ranking` leaves every counter's emoji and tallies untouched:
each returned entry agrees with the corresponding entry of the truncated
sorted input except possibly in `rank`, the result holds exactly the first
`min slice_num n` sorted entries, and every counter cut off by the
truncation is an unmodified member of the input list (its prior rank
included). -/
theorem C10_rank_only_frame (order : SortOrder) (counters : List EmojiCounter)
    (slice_num : Nat) :
    (sort_ranking order counters slice_num).length = min slice_num counters.length ∧
    (∀ (j : Nat) (a b : EmojiCounter),
      ((List.insertionSort (sortRel (SortOrder.reverse order)) counters).take slice_num)[j]? =
        some a →
      (sort_ranking order counters slice_num)[j]? = some b →
      b.emoji = a.emoji ∧ b.counts = a.counts ∧ b.content_count = a.content_count ∧
        b.reaction_count = a.reaction_count ∧ b.total_count = a.total_count) ∧
    (∀ c : EmojiCounter,
      c ∈ (List.insertionSort (sortRel (SortOrder.reverse order)) counters).drop slice_num →
      c ∈ counters) := by
  refine ⟨sort_ranking_length order counters slice_num, ?_, ?_⟩
  · intro j a b h1 h2
    have hshape := assignRanks_shape _ j a b h1 h2
    refine ⟨hshape.1, hshape.2, ?_, ?_, total_count_of_counts_eq hshape.2⟩
    · unfold EmojiCounter.content_count
      rw [hshape.2]
    · unfold EmojiCounter.reaction_count
      rw [hshape.2]
  · intro c hc
    have hmem : c ∈ List.insertionSort (sortRel (SortOrder.reverse order)) counters :=
      List.drop_subset _ _ hc
    exact (List.mem_insertionSort _).mp hmem

/-- C10 witness: the frame property on the `[5, 5, 5, 1]` example with
limit 2, at index 0. -/
theorem C10_rank_only_frame_witness :
    ((List.insertionSort (sortRel (SortOrder.reverse SortOrder.DESCENDING)) ex5551).take 2)[0]? =
      some (counterWithTotal eA 5) ∧
    (sort_ranking SortOrder.DESCENDING ex5551 2)[0]? =
      some { counterWithTotal eA 5 with rank := 1 } ∧
    ({ counterWithTotal eA 5 with rank := 1 }.emoji = (counterWithTotal eA 5).emoji ∧
      { counterWithTotal eA 5 with rank := 1 }.counts = (counterWithTotal eA 5).counts ∧
      { counterWithTotal eA 5 with rank := 1 }.content_count =
        (counterWithTotal eA 5).content_count ∧
      { counterWithTotal eA 5 with rank := 1 }.reaction_count =
        (counterWithTotal eA 5).reaction_count ∧
      { counterWithTotal eA 5 with rank := 1 }.total_count =
        (counterWithTotal eA 5).total_count) :=
  ⟨by decide, by decide,
    (C10_rank_only_frame SortOrder.DESCENDING ex5551 2).2.1 0 _ _ (by decide) (by decide)⟩

end DiscordEmojiRanking
